import Mathlib

/-!
Shallow embedding of the XenianChannelBot repository for specification
checking.  Each definition mirrors one function or data shape of the
Python source; theorems at the end of the file settle the claims about
the spec.  Identifiers, stored documents and callback functions are
abstracted as strings, naturals or association lists; perceptual
similarity distances are modelled as rationals, which is faithful for
the threshold comparisons performed by the code.
-/

set_option autoImplicit false

namespace XCBot

/-! ### Association-list helpers (Python dict operations) -/

/-- Lookup of a key in a Python dict, modelled as an association list
scanned front to back (dict keys are unique in a real dict). -/
def lookupKey {β : Type} : List (String × β) → String → Option β
  | [], _ => none
  | p :: rest, k => if p.1 = k then some p.2 else lookupKey rest k

/-- Assignment `d[k] = v` on a Python dict: replace the value of an
existing key in place, otherwise append the new pair at the end. -/
def setKey {β : Type} (m : List (String × β)) (k : String) (v : β) :
    List (String × β) :=
  if m.any (fun p => p.1 = k) then
    m.map (fun p => if p.1 = k then (k, v) else p)
  else m ++ [(k, v)]

/-- `dict.update`: write every pair of the update into the dict in order. -/
def dictUpdate {β : Type} (m upd : List (String × β)) : List (String × β) :=
  upd.foldl (fun acc kv => setKey acc kv.1 kv.2) m

/-- Python `str.isdigit`: true when the string is nonempty and all of its
characters are digits. -/
def pyIsDigit (s : String) : Bool :=
  !s.toList.isEmpty && s.toList.all Char.isDigit

/-! ### UserState (models/user_state.py) -/

/-- The UserState document: the workflow `state` string, the current
channel reference, the scratch data map and the mongoengine
`_initialised` flag (set once the document has been constructed). -/
structure UserStateDoc where
  state : String
  currentChannel : Option String
  stateData : List (String × String)
  initialised : Bool
  deriving DecidableEq, Repr

/-- Raw attribute assignment on a UserState document, dispatched on the
attribute name as Python setattr does (unknown keys left unmodelled
change nothing). -/
def docSetRaw (doc : UserStateDoc) (key : String) (value : String) :
    UserStateDoc :=
  if key = "state" then { doc with state := value }
  else if key = "current_channel" then { doc with currentChannel := some value }
  else doc

/-- `UserState.__setattr__` (models/user_state.py lines 35 to 38): perform
the ordinary attribute assignment and, when the document is initialised
and the key is `state`, immediately `save` the whole document.  The
second component is the storage cell holding the persisted copy. -/
def userStateSetattr (store : Option UserStateDoc) (doc : UserStateDoc)
    (key : String) (value : String) :
    UserStateDoc × Option UserStateDoc :=
  let doc := docSetRaw doc key value
  if doc.initialised && key = "state" then (doc, some doc) else (doc, store)

/-! ### Reaction voting (ChannelManager.reaction_button_callback_query) -/

/-- Total number of occurrences of a voter across all reaction buckets of
a message ledger. -/
def userOcc (reactions : List (String × List Nat)) (userId : Nat) : Nat :=
  (reactions.map (fun p => p.2.count userId)).sum

/-- Dict lookup on the reaction ledger (`message.reactions[reaction]`). -/
def bucketOf (reactions : List (String × List Nat)) (emoji : String) :
    Option (List Nat) :=
  match reactions with
  | [] => none
  | p :: rest => if p.1 = emoji then some p.2 else bucketOf rest emoji

/-- `ChannelManager.reaction_button_callback_query` core (channelmanager.py
lines 1380 to 1396): none when the emoji is not a bucket of the message
(the handler answers with an error); an unchanged ledger when the voter
already picked that emoji; otherwise the voter is removed from every
bucket containing it (one occurrence each, as `list.remove` does) and
appended to the chosen bucket. -/
def reactionTap (reactions : List (String × List Nat)) (emoji : String)
    (userId : Nat) : Option (List (String × List Nat)) :=
  match bucketOf reactions emoji with
  | none => none
  | some users =>
    if userId ∈ users then some reactions
    else
      let removed := reactions.map
        (fun p => (p.1, if userId ∈ p.2 then p.2.erase userId else p.2))
      some (removed.map
        (fun p => if p.1 = emoji then (p.1, p.2 ++ [userId]) else p))

/-! ### Similarity search and message queuing (channelmanager.py) -/

/-- One result entry of the image similarity search: its normalized
distance and the chat id of its metadata (none when the metadata carries
no chat id). -/
structure SimEntry where
  dist : ℚ
  chatId : Option Int
  deriving DecidableEq, Repr

/-- `ChannelManager.get_similar_in_channel` (lines 363 to 376): default
the minimal similarity to 1 (a passed 0 is falsy in Python and also
defaults), then keep the entries whose metadata has a chat id, which are
not excluded as the own image, whose distance is at most the minimum and
whose chat id is the channel chat. -/
def getSimilarInChannel (minSimilarity : Option ℚ) (found : List SimEntry)
    (channelChatId : Int) (excludeOwn : Bool) : List SimEntry :=
  let minSim : ℚ := match minSimilarity with
    | none => 1
    | some x => if x = 0 then 1 else x
  found.filter (fun e =>
    match e.chatId with
    | none => false
    | some cid =>
      !(excludeOwn && decide (e.dist = 0)) &&
        (decide (e.dist ≤ minSim) && decide (cid = channelChatId)))

/-- File id lists of a list of message references after `resolve_dbref`: a
none entry is a dangling reference and is skipped. -/
def resolvedFileIds (msgs : List (Option (List String))) : List String :=
  (msgs.reduceOption).flatten

/-- One ChannelSettings document sharing the chat of the current channel,
reduced to the data `get_sent_file_id_of_chat` reads: its sent message
file id lists and its entry in the process wide `sent_file_id_cache`
(none when the channel is not in the cache). -/
structure ChatChannel where
  sent : List (Option (List String))
  cache : Option (List String)
  deriving DecidableEq, Repr

/-- `ChannelManager.get_sent_file_id_of_chat` (lines 336 to 346): for each
channel of the chat, yield the cached file ids when the channel is in the
cache and no forced reload is requested, otherwise the file ids of its
sent messages. -/
def sentFileIdsOfChat (channels : List ChatChannel) (forceReload : Bool) :
    List String :=
  (channels.map (fun ch =>
    match ch.cache with
    | some cached => if forceReload then resolvedFileIds ch.sent else cached
    | none => resolvedFileIds ch.sent)).flatten

/-- The inputs of duplicate detection for the current channel: every
ChannelSettings with the same chat (the current channel among them), and
the queued and added message lists of the current channel. -/
structure DedupInput where
  chatChannels : List ChatChannel
  queuedMessages : List (String × List (Option (List String)))
  addedMessages : List (Option (List String))
  deriving DecidableEq, Repr

/-- `ChannelManager.get_all_file_ids_of_channel` (lines 330 to 334): sent
file ids of the chat, then the queued file ids, then the added file ids
of the channel. -/
def getAllFileIdsOfChannel (inp : DedupInput) (forceReload : Bool) :
    List String :=
  sentFileIdsOfChat inp.chatChannels forceReload
    ++ ((inp.queuedMessages.map (fun kv => resolvedFileIds kv.2)).flatten
    ++ resolvedFileIds inp.addedMessages)

/-- The inert marker button the handler may attach beneath an accepted
message: the stop sign 90 percent marker or the warning 70 percent
marker. -/
inductive Marker
  | ninety
  | seventy
  deriving DecidableEq, Repr

/-- Outcome of handling one candidate message in the CREATE_SINGLE_POST
state. -/
inductive QueueOutcome
  | unsupported
  | rejected
  | queued (marker : Option Marker)
  deriving DecidableEq, Repr

/-- The incoming message: whether it carries one of the supported content
kinds, and its own file ids. -/
structure IncomingMessage where
  supported : Bool
  fileIds : List String
  deriving DecidableEq, Repr

/-- The refusal condition of `queue_message_message_handler` (lines 630
to 631): the file ids of the message intersect the channel file ids, or
some similarity match has distance at most 0.8. -/
def queueBlocked (msg : IncomingMessage) (dedup : DedupInput)
    (found : List SimEntry) (channelChatId : Int) : Bool :=
  !(msg.fileIds.filter
      (fun i => (getAllFileIdsOfChannel dedup false).contains i)).isEmpty ||
  !((getSimilarInChannel none found channelChatId false).filter
      (fun e => decide (e.dist ≤ (8 : ℚ)/10))).isEmpty

/-- The marker choice of `queue_message_message_handler` (lines 635 to
643): the stop sign 90 percent text for a match of distance at most 0.1,
else the warning 70 percent text for one of distance at most 0.3, else
none. -/
def queueMarker (similarImages : List SimEntry) : Option Marker :=
  if !(similarImages.filter (fun e => decide (e.dist ≤ (1 : ℚ)/10))).isEmpty then
    some .ninety
  else if !(similarImages.filter (fun e => decide (e.dist ≤ (3 : ℚ)/10))).isEmpty then
    some .seventy
  else none

/-- `ChannelManager.queue_message_message_handler` (lines 620 to 653):
unsupported content is refused; a message satisfying the refusal
condition is refused with the already sent reply and the added list
unchanged; otherwise the marker is chosen, the message is saved and
appended to `added_messages`, and a preview with the marker button is
sent.  Returns the outcome and the new added message list. -/
def queueMessageMessageHandler (msg : IncomingMessage) (dedup : DedupInput)
    (found : List SimEntry) (channelChatId : Int) :
    QueueOutcome × List (Option (List String)) :=
  if !msg.supported then (.unsupported, dedup.addedMessages)
  else if queueBlocked msg dedup found channelChatId then
    (.rejected, dedup.addedMessages)
  else
    (.queued (queueMarker (getSimilarInChannel none found channelChatId false)),
     dedup.addedMessages ++ [some msg.fileIds])

/-! ### Scheduling (ChannelManager.schedule_callback_query and chunks) -/

/-- Helper of `chunks` for a positive chunk size `k + 1`, consuming the
list front to back; the structural fuel argument is seeded with the list
length, which every step strictly decreases, so the fuel never runs out
when seeded that way. -/
def chunksGo {α : Type} (k : Nat) : Nat → List α → List (List α)
  | _, [] => []
  | 0, _ :: _ => []
  | fuel + 1, x :: xs => (x :: xs).take (k + 1) :: chunksGo k fuel (xs.drop k)

/-- `ChannelManager.chunks` (lines 1236 to 1240): split a list into
consecutive slices of length `n` (Python raises for step 0; the claims
only use positive sizes, so size 0 is mapped to the empty result). -/
def chunks {α : Type} (l : List α) (n : Nat) : List (List α) :=
  match n with
  | 0 => []
  | k + 1 => chunksGo k l.length l

/-- The mutable channel data read and written by the scheduling
confirmation: message references abstracted as naturals. -/
structure ScheduleState where
  addedMessages : List Nat
  scheduledMessages : List (String × List Nat)
  deriving DecidableEq, Repr

/-- `ChannelManager.schedule_callback_query` core (lines 1184 to 1224),
after the wizard inputs have been parsed: select the messages (added,
added plus previously scheduled for extend, previously scheduled only
for reschedule), clear the old schedule when extending or rescheduling,
optionally shuffle, chunk into batches, key batch `k` by the string of
`when + k * delay` epoch seconds, merge into `scheduled_messages` via
`dict.update`, and clear `added_messages`. -/
def scheduleCallbackQuery (whenTimestamp delaySeconds : Int) (batchSize : Nat)
    (extend reschedule randomize : Bool) (shuffle : List Nat → List Nat)
    (st : ScheduleState) : ScheduleState :=
  let messages := st.addedMessages
  let scheduledList := (st.scheduledMessages.map Prod.snd).flatten
  let messages :=
    if extend then messages ++ scheduledList
    else if reschedule then scheduledList
    else messages
  let scheduled0 :=
    if extend || reschedule then [] else st.scheduledMessages
  let messages := if randomize then shuffle messages else messages
  let cs := chunks messages batchSize
  let schedule := cs.enum.map
    (fun kc => (toString (whenTimestamp + delaySeconds * (kc.1 : Int)), kc.2))
  { addedMessages := [],
    scheduledMessages := dictUpdate scheduled0 schedule }

/-! ### Channel registration (ChannelManager.register_channel_message_handler) -/

/-- The update data the registration handler reads: the forward origin
chat of the message (none when the message was not forwarded from a
chat), whether a ChannelSettings for this user and chat already exists,
and whether the bot is an administrator of the channel. -/
structure RegisterInput where
  forwardFromChatId : Option Int
  alreadyRegistered : Bool
  botIsAdmin : Bool
  deriving DecidableEq, Repr

/-- The observable effect of one run of the registration handler: the
reply sent, whether a ChannelSettings document was created, and the
state the user is left in when the handler changed it. -/
structure RegisterResult where
  reply : Option String
  channelCreated : Bool
  stateAfter : Option String
  deriving DecidableEq, Repr

/-- `ChannelManager.register_channel_message_handler` (channelmanager.py
lines 585 to 618).  The second line of the handler evaluates
`channel_chat.id` to query the Chat collection, which raises
AttributeError when the message has no forward origin chat; the
`if not channel_chat` rejection branch below it is therefore dead code.
Then: an existing registration is rejected, a channel where the bot is
not an administrator is rejected, and otherwise the Chat document is
refreshed, a ChannelSettings is created, the reply is sent and the state
becomes idle with the channel list rendered. -/
def registerChannelMessageHandler (inp : RegisterInput) :
    Except String RegisterResult := do
  let channelChat := inp.forwardFromChatId
  let _cid : Int ← match channelChat with
    | none => Except.error "AttributeError: NoneType has no attribute id"
    | some cid => Except.ok cid
  if channelChat.isNone then
    return { reply := some "You have to send me a message from the channel.",
             channelCreated := false, stateAfter := none }
  else if inp.alreadyRegistered then
    return { reply := some "You have already added this channel.",
             channelCreated := false, stateAfter := none }
  else if !inp.botIsAdmin then
    return { reply := some "I need to be an administrator in the channel.",
             channelCreated := false, stateAfter := none }
  else
    return { reply := some "Channel was added.",
             channelCreated := true, stateAfter := some "idle" }

/-! ### Ephemeral buttons (utils/magic_buttons.py) -/

/-- The MagicButton descriptor: callbacks are abstracted as natural
identifiers and the extra positional and keyword arguments of a callback
as one list.  The Python conversion of a none url to an empty string in
`copy` is behaviorally the none case (both are falsy wherever the url is
read). -/
structure MagicButton where
  id : String
  text : String
  data : List (String × String)
  url : Option String
  yesNo : Bool
  yesNoText : String
  callback : Nat
  callbackArgs : List Nat
  noCallback : Option Nat
  noCallbackArgs : List Nat
  deriving DecidableEq, Repr

/-- The arguments of `MagicButton.__init__` that matter to the claims,
with the optional ones as options. -/
structure MagicButtonParams where
  text : String
  data : Option (List (String × String))
  url : Option String
  yesNo : Bool
  yesNoText : Option String
  callback : Nat
  callbackArgs : Option (List Nat)
  noCallback : Option Nat
  noCallbackArgs : Option (List Nat)
  deriving DecidableEq, Repr

/-- The button `MagicButton.__init__` builds from its parameters, after
the `or` defaulting of data, yes no text and argument lists. -/
def mkMagicButton (newId : String) (p : MagicButtonParams) : MagicButton :=
  { id := newId, text := p.text,
    data := p.data.getD [],
    url := p.url, yesNo := p.yesNo,
    yesNoText := p.yesNoText.getD "Are you sure?",
    callback := p.callback, callbackArgs := p.callbackArgs.getD [],
    noCallback := p.noCallback, noCallbackArgs := p.noCallbackArgs.getD [] }

/-- `MagicButton.__init__` (magic_buttons.py lines 37 to 78): the fresh id
is inserted into the class registry `all_buttons` at the very top of the
constructor, before any validation; then the fields are assigned with
their defaults; then yes no mode without an abort callback raises
AttributeError; the final data or url check compares the already
defaulted `self.data` against none, so it can never fire.  Returns the
registry after the call together with the construction result. -/
def magicButtonInit (registry : List (String × MagicButton)) (newId : String)
    (p : MagicButtonParams) :
    List (String × MagicButton) × Except String MagicButton :=
  let btn := mkMagicButton newId p
  let registry := registry ++ [(newId, btn)]
  if p.yesNo && p.noCallback.isNone then
    (registry,
     .error "AttributeError: When yes_no is given no_callback must be given too")
  else
    let selfDataIsNone := false
    if selfDataIsNone && p.url.isNone then
      (registry, .error "AttributeError: Either data or url must be given")
    else (registry, .ok btn)

/-- `MagicButton.copy` as used by the confirmation flow: every field of
the original except the id, the text, the yes no flag and the data
payload carrying the back reference and the answer marker. -/
def magicCopyForAnswer (b : MagicButton) (freshId label answer : String) :
    MagicButton :=
  { b with id := freshId, text := label, yesNo := false,
           data := [("original", b.id), ("yes_no_answer", answer)] }

/-- What one callback dispatch of `MagicButton.message_handler` does to
the outside world. -/
inductive DispatchAction
  | timeoutEdit
  | invoke (method : Option Nat) (extra : List Nat)
      (data : List (String × String)) (deletedPrompt : Bool)
  | confirmationPrompt (promptText yesId noId : String)
  deriving DecidableEq, Repr

/-- `MagicButton.message_handler` (magic_buttons.py lines 160 to 205): an
unknown id edits the message to a timeout notice; a button in yes no
mode is replaced by a prompt built from two derived buttons, both
registered by their constructors; otherwise the answer defaults to yes,
the matching callback and preset arguments are selected, the data
payload is taken from the original button when a truthy back reference
is present (a missing original raises AttributeError), and the prompt
message is deleted exactly when this was a confirmation answer.  The
fresh ids feed the uuid of each derived button. -/
def magicMessageHandler (registry : List (String × MagicButton))
    (tappedId freshYesId freshNoId : String) :
    Except String (DispatchAction × List (String × MagicButton)) :=
  match lookupKey registry tappedId with
  | none => .ok (.timeoutEdit, registry)
  | some button =>
    if button.yesNo then
      let yesBtn := magicCopyForAnswer button freshYesId "Yes" "yes"
      let noBtn := magicCopyForAnswer button freshNoId "No" "no"
      .ok (.confirmationPrompt button.yesNoText freshYesId freshNoId,
           registry ++ [(freshYesId, yesBtn), (freshNoId, noBtn)])
    else
      let rawAnswer := lookupKey button.data "yes_no_answer"
      let answer := match rawAnswer with
        | none => "yes"
        | some s => if s = "" then "yes" else s
      let method := if answer = "yes" then some button.callback else button.noCallback
      let extra := if answer = "yes" then button.callbackArgs else button.noCallbackArgs
      let isAnswerTap := match rawAnswer with
        | none => false
        | some s => decide (s ≠ "")
      let origRef := lookupKey button.data "original"
      let origTruthy := match origRef with
        | none => false
        | some s => decide (s ≠ "")
      if origTruthy then
        match lookupKey registry (origRef.getD "") with
        | none => .error "AttributeError: NoneType has no attribute data"
        | some origBtn =>
          .ok (.invoke method extra origBtn.data isAnswerTap, registry)
      else
        .ok (.invoke method extra button.data isAnswerTap, registry)

/-! ### Message id migration (migrations/remove_message_id_as_primary_key.py) -/

/-- A message reference inside a channel settings document: either an old
bare numeric message id or an opaque object id key. -/
inductive MsgRef
  | num (n : Int)
  | oid (s : String)
  deriving DecidableEq, Repr

/-- One message processed by the migration: its old numeric id, the newly
generated object id, and the chat and sender references of the stored
message document. -/
structure MigMessage where
  oldId : Int
  newId : String
  chatRef : String
  userRef : String
  deriving DecidableEq, Repr

/-- A batch keyed queue field of a channel settings document, which may
still have the legacy plain list shape. -/
inductive QueueField
  | legacyList (refs : List MsgRef)
  | asMap (m : List (String × List MsgRef))
  deriving DecidableEq, Repr

/-- A raw channel settings document as the migration reads it. -/
structure MigChannel where
  user : String
  chat : String
  importMessages : List MsgRef
  sentMessages : List MsgRef
  addedMessages : List MsgRef
  queuedMessages : QueueField
  importMessagesQueue : QueueField
  deriving DecidableEq, Repr

/-- `replace_id` inside `Migrator.migrate_channels` (lines 76 to 79): a
reference is replaced by the new object id exactly when it equals the
old numeric id and the channel document `user` field equals the `chat`
field of the migrated message document. -/
def replaceId (m : MigMessage) (ch : MigChannel) (r : MsgRef) : MsgRef :=
  if r = MsgRef.num m.oldId ∧ ch.user = m.chatRef then MsgRef.oid m.newId else r

/-- The claim reads the guard of `replace_id` as membership of the channel
settings document with the administering user of the migrated message;
modelled from the claim wording for comparison with `replaceId`: the
natural reading compares the channel `user` field with the sender
reference of the message document. -/
def claimReplaceId (m : MigMessage) (ch : MigChannel) (r : MsgRef) : MsgRef :=
  if r = MsgRef.num m.oldId ∧ ch.user = m.userRef then MsgRef.oid m.newId else r

/-- Queue field rewriting of `migrate_channels` (lines 90 to 104): a
legacy list shape is reset to an empty map, a map shape keeps its keys
and maps the rewrite over every value list. -/
def mapQueueField (f : MsgRef → MsgRef) : QueueField → QueueField
  | .legacyList _ => .asMap []
  | .asMap m => .asMap (m.map (fun kv => (kv.1, kv.2.map f)))

/-- `Migrator.migrate_channels` (lines 75 to 104) applied to one channel:
rewrite the three plain reference lists and the two queue maps with
`replace_id`. -/
def migrateChannels (m : MigMessage) (ch : MigChannel) : MigChannel :=
  { ch with
    importMessages := ch.importMessages.map (replaceId m ch),
    sentMessages := ch.sentMessages.map (replaceId m ch),
    addedMessages := ch.addedMessages.map (replaceId m ch),
    queuedMessages := mapQueueField (replaceId m ch) ch.queuedMessages,
    importMessagesQueue := mapQueueField (replaceId m ch) ch.importMessagesQueue }

/-- String representation of a reference as `str` sees it in
`Migrator.old_id_filter`. -/
def strOfRef : MsgRef → String
  | .num n => toString n
  | .oid s => s

/-- `Migrator.old_id_filter` (lines 106 to 107): keep a reference exactly
when its string form is not a bare digit string. -/
def oldIdFilter (r : MsgRef) : Bool :=
  !pyIsDigit (strOfRef r)

/-- `Migrator.save_channels` (lines 109 to 124) applied to one channel:
strip every reference still shaped like a bare numeric id from the three
plain lists and from every queue map value; a queue field still in the
legacy list shape has no `items` attribute and raises. -/
def saveChannel (ch : MigChannel) : Except String MigChannel :=
  match ch.queuedMessages, ch.importMessagesQueue with
  | .asMap qm, .asMap iqm =>
    .ok { ch with
      importMessages := ch.importMessages.filter oldIdFilter,
      sentMessages := ch.sentMessages.filter oldIdFilter,
      addedMessages := ch.addedMessages.filter oldIdFilter,
      queuedMessages := .asMap (qm.map (fun kv => (kv.1, kv.2.filter oldIdFilter))),
      importMessagesQueue :=
        .asMap (iqm.map (fun kv => (kv.1, kv.2.filter oldIdFilter))) }
  | _, _ => .error "AttributeError: list object has no attribute items"

/-- `Migrator.migrate` (lines 65 to 73) restricted to one channel: fold
`migrate_channels` over the reversed message list, then run the
`save_channels` pass. -/
def migrateAll (msgs : List MigMessage) (ch : MigChannel) :
    Except String MigChannel :=
  saveChannel (msgs.reverse.foldl (fun c m => migrateChannels m c) ch)

/-! ### Image board tag search (xenian/bot/commands/animedatabases.py) -/

/-- `DanbooruService.LEVEL_RESTRICTIONS` tag limit table (lines 35 to 44),
keyed by the numeric user level. -/
def tagLimitTable (level : Nat) : Option Nat :=
  if level = 20 then some 2
  else if level = 30 then some 6
  else if level = 31 then some 12
  else if level = 32 then some 32
  else if level = 35 then some 35
  else if level = 40 then some 40
  else if level = 50 then some 50
  else none

/-- `DanbooruService.get_user_level` (lines 108 to 113): the remote level
when a username is configured, else the free tier level 20. -/
def getUserLevel (username : Option String) (remoteLevel : Nat) : Nat :=
  match username with
  | none => 20
  | some _ => remoteLevel

/-- A character removed by the `filter_terms` black list: anything that is
not a word character or one of underscore, hyphen, space, plus, tilde,
star, colon (the ASCII reading of the regular expression). -/
def blacklistChar (c : Char) : Bool :=
  !(c.isAlphanum || c ∈ ['_', '-', ' ', '+', '~', '*', ':'])

/-- Order preserving de-duplication as `OrderedDict.fromkeys` does,
keeping the first occurrence of each term. -/
def pyDedup (seen : List String) : List String → List String
  | [] => []
  | x :: xs =>
    if x ∈ seen then pyDedup seen xs else x :: pyDedup (x :: seen) xs

/-- Python `str.strip` on a character list: drop whitespace from both
ends. -/
def pyStrip (l : List Char) : List Char :=
  ((l.dropWhile Char.isWhitespace).reverse.dropWhile Char.isWhitespace).reverse

/-- `AnimeDatabases.filter_terms` (lines 246 to 260): strip black listed
characters, trim whitespace, fold inner spaces to underscores, drop
empty terms (the leading black list match can no longer fire after the
substitution but is kept), then de-duplicate preserving order. -/
def filterTerms (terms : List String) : List String :=
  let ts := terms.map (fun t => t.toList.filter (fun c => !blacklistChar c))
  let ts := ts.map pyStrip
  let ts := ts.map (fun l => l.map (fun c => if c = ' ' then '_' else c))
  let ts := ts.filter (fun l =>
    !(match l with
      | [] => false
      | c :: _ => blacklistChar c) && !l.isEmpty)
  pyDedup [] (ts.map (fun l => String.mk l))

/-- Outcome of the argument checks of `danbooru_search`. -/
inductive SearchOutcome
  | rejectedGroupSize
  | rejectedTagLimit (limit : Nat) (message : String)
  | accepted (tags : List String)
  deriving DecidableEq, Repr

/-- The guard `group_size and group_size > 10` of `danbooru_search`: a
missing group size is falsy and passes. -/
def groupSizeTooBig (groupSize : Option Nat) : Bool :=
  match groupSize with
  | none => false
  | some g => decide (g > 10)

/-- The number of sanitized terms that do not carry a qualifier colon
(qualifiers such as order:score are not counted against the limit). -/
def plainTagCount (terms : List String) : Nat :=
  ((filterTerms terms).filter (fun t => !(t.toList.contains ':'))).length

/-- The tag limit gate of `AnimeDatabases.danbooru_search` (lines 204 to
244): reject a group size above 10 before anything else; sanitize the
terms; reject when the number of terms without a qualifier colon exceeds
the tag limit of the service, naming the limit; else accept the query
with the sanitized tags. -/
def danbooruSearch (groupSize : Option Nat) (terms : List String)
    (tagLimit : Nat) : SearchOutcome :=
  if groupSizeTooBig groupSize then .rejectedGroupSize
  else if plainTagCount terms > tagLimit then
    .rejectedTagLimit tagLimit (s!"Only {tagLimit} tags can be used.")
  else .accepted (filterTerms terms)

/-! ### Helper lemmas on the dict model -/

theorem lookupKey_append {β : Type} (l1 l2 : List (String × β)) (k : String) :
    lookupKey (l1 ++ l2) k =
      match lookupKey l1 k with
      | some v => some v
      | none => lookupKey l2 k := by
  induction l1 with
  | nil => rfl
  | cons p rest ih =>
    simp only [List.cons_append, lookupKey]
    split <;> simp [ih]

theorem lookupKey_append_of_some {β : Type} {l1 : List (String × β)}
    (l2 : List (String × β)) {k : String} {v : β}
    (h : lookupKey l1 k = some v) : lookupKey (l1 ++ l2) k = some v := by
  rw [lookupKey_append, h]

theorem lookupKey_append_of_none {β : Type} {l1 : List (String × β)}
    (l2 : List (String × β)) {k : String}
    (h : lookupKey l1 k = none) : lookupKey (l1 ++ l2) k = lookupKey l2 k := by
  rw [lookupKey_append, h]

theorem lookupKey_mapSet_self {β : Type} (k : String) (v : β) :
    ∀ m : List (String × β), (m.any fun p => decide (p.1 = k)) = true →
      lookupKey (m.map (fun p => if p.1 = k then (k, v) else p)) k = some v := by
  intro m
  induction m with
  | nil => simp
  | cons p rest ih =>
    intro hany
    by_cases hp : p.1 = k
    · simp [lookupKey, hp]
    · have hany2 : (rest.any fun p => decide (p.1 = k)) = true := by
        simpa [hp] using hany
      simpa [lookupKey, hp] using ih hany2

theorem lookupKey_of_any_eq_false {β : Type} (k : String) :
    ∀ m : List (String × β), (m.any fun p => decide (p.1 = k)) = false →
      lookupKey m k = none := by
  intro m
  induction m with
  | nil => intro _; rfl
  | cons p rest ih =>
    intro hany
    simp only [List.any_cons, Bool.or_eq_false_iff] at hany
    have hp : ¬ p.1 = k := by simpa using hany.1
    simp [lookupKey, hp, ih hany.2]

theorem lookupKey_setKey_self {β : Type} (m : List (String × β)) (k : String)
    (v : β) : lookupKey (setKey m k v) k = some v := by
  unfold setKey
  by_cases hany : (m.any fun p => decide (p.1 = k)) = true
  · rw [if_pos hany]
    exact lookupKey_mapSet_self k v m hany
  · rw [if_neg hany]
    have hany2 : (m.any fun p => decide (p.1 = k)) = false := by
      simp only [Bool.not_eq_true] at hany
      exact hany
    rw [lookupKey_append_of_none _ (lookupKey_of_any_eq_false k m hany2)]
    simp [lookupKey]

theorem lookupKey_mapSet_of_ne {β : Type} (k0 : String) (v0 : β) (k : String)
    (h : k ≠ k0) :
    ∀ m : List (String × β),
      lookupKey (m.map (fun p => if p.1 = k0 then (k0, v0) else p)) k =
        lookupKey m k := by
  have hk0k : ¬ k0 = k := fun hk => h hk.symm
  intro m
  induction m with
  | nil => rfl
  | cons p rest ih =>
    by_cases hp : p.1 = k0
    · have hpk : ¬ p.1 = k := by
        rw [hp]
        exact hk0k
      rw [List.map_cons, if_pos hp]
      simp [lookupKey, hk0k, hpk, ih]
    · rw [List.map_cons, if_neg hp]
      by_cases hk : p.1 = k
      · simp [lookupKey, hk]
      · simp [lookupKey, hk, ih]

theorem lookupKey_setKey_of_ne {β : Type} (m : List (String × β)) (k0 : String)
    (v0 : β) (k : String) (h : k ≠ k0) :
    lookupKey (setKey m k0 v0) k = lookupKey m k := by
  unfold setKey
  by_cases hany : (m.any fun p => decide (p.1 = k0)) = true
  · rw [if_pos hany]
    exact lookupKey_mapSet_of_ne k0 v0 k h m
  · rw [if_neg hany, lookupKey_append]
    cases hm : lookupKey m k with
    | some v => rfl
    | none =>
      have hk0k : ¬ k0 = k := fun hk => h hk.symm
      simp [lookupKey, hk0k]

theorem lookupKey_dictUpdate_notMem {β : Type} (upd : List (String × β))
    (k : String) (h : k ∉ upd.map Prod.fst) :
    ∀ m, lookupKey (dictUpdate m upd) k = lookupKey m k := by
  induction upd with
  | nil => intro m; rfl
  | cons p rest ih =>
    intro m
    simp only [List.map_cons, List.mem_cons] at h
    push_neg at h
    show lookupKey (dictUpdate (setKey m p.1 p.2) rest) k = lookupKey m k
    rw [ih h.2, lookupKey_setKey_of_ne _ _ _ _ h.1]

theorem lookupKey_dictUpdate {β : Type} (upd : List (String × β)) (k : String)
    (v : β) :
    ∀ m, (k, v) ∈ upd → (upd.map Prod.fst).Nodup →
      lookupKey (dictUpdate m upd) k = some v := by
  induction upd with
  | nil =>
    intro m hmem _
    simp at hmem
  | cons p rest ih =>
    intro m hmem hnd
    simp only [List.map_cons, List.nodup_cons] at hnd
    rcases List.mem_cons.mp hmem with heq | hrest
    · have hk : k ∉ rest.map Prod.fst := by
        rw [← heq] at hnd
        exact hnd.1
      show lookupKey (dictUpdate (setKey m p.1 p.2) rest) k = some v
      rw [lookupKey_dictUpdate_notMem rest k hk, ← heq]
      exact lookupKey_setKey_self m k v
    · exact ih (setKey m p.1 p.2) hrest hnd.2

/-! ### Claim theorems -/

/-- Claim C6: for every initialised UserState document, assigning a new
value to its `state` field durably persists the whole document as a side
effect of the assignment itself, so reloading the document from storage
right afterwards observes the new state value. -/
theorem userState_state_assignment_persists
    (store : Option UserStateDoc) (doc : UserStateDoc) (v : String)
    (h : doc.initialised = true) :
    (userStateSetattr store doc "state" v).2 = some (docSetRaw doc "state" v) ∧
    ((userStateSetattr store doc "state" v).2.map UserStateDoc.state) = some v := by
  constructor <;> simp [userStateSetattr, docSetRaw, h]

/-- Witness for C6 at a concrete initialised document. -/
theorem userState_state_assignment_persists_witness :
    (userStateSetattr none ⟨"idle", none, [], true⟩ "state" "adding channel").2 =
      some (docSetRaw ⟨"idle", none, [], true⟩ "state" "adding channel") ∧
    ((userStateSetattr none ⟨"idle", none, [], true⟩ "state"
        "adding channel").2.map UserStateDoc.state) = some "adding channel" :=
  userState_state_assignment_persists none ⟨"idle", none, [], true⟩
    "adding channel" rfl

/-- Claim C3: the registration handler, evaluated over its four cases.  A
message with no forward origin chat makes the handler raise
AttributeError on `channel_chat.id` before its own rejection reply can
run (the rejection branch in the source is dead code), diverging from
the claim; an existing registration and a channel where the bot is not
an administrator are rejected without creating a document and without a
state change; otherwise the channel is created and the state becomes
idle. -/
theorem register_channel_gating :
    (registerChannelMessageHandler ⟨none, false, true⟩ =
      Except.error "AttributeError: NoneType has no attribute id") ∧
    (∀ cid adm, registerChannelMessageHandler ⟨some cid, true, adm⟩ =
      Except.ok ⟨some "You have already added this channel.", false, none⟩) ∧
    (∀ cid, registerChannelMessageHandler ⟨some cid, false, false⟩ =
      Except.ok ⟨some "I need to be an administrator in the channel.", false, none⟩) ∧
    (∀ cid, registerChannelMessageHandler ⟨some cid, false, true⟩ =
      Except.ok ⟨some "Channel was added.", true, some "idle"⟩) := by
  refine ⟨rfl, fun cid adm => ?_, fun cid => rfl, fun cid => rfl⟩
  cases adm <;> rfl

/-- Claim C9: the free tier level resolves to tag limit 2 through the
fixed table; with that limit, a query whose sanitized tags hold three or
more tags without a qualifier colon is rejected with the message naming
the limit 2, and a query with at most two plain tags plus any number of
qualifier tags is accepted (group sizes above 10 are rejected earlier
and excluded by hypothesis). -/
theorem danbooru_tag_limit_enforcement :
    (∀ remoteLevel, tagLimitTable (getUserLevel none remoteLevel) = some 2) ∧
    (∀ groupSize terms, groupSize.getD 0 ≤ 10 →
      (3 ≤ plainTagCount terms →
        danbooruSearch groupSize terms 2 =
          .rejectedTagLimit 2 "Only 2 tags can be used.") ∧
      (plainTagCount terms ≤ 2 →
        danbooruSearch groupSize terms 2 = .accepted (filterTerms terms))) := by
  constructor
  · intro remoteLevel
    rfl
  · intro groupSize terms hg
    have htb : groupSizeTooBig groupSize = false := by
      cases groupSize with
      | none => rfl
      | some g =>
        simp only [Option.getD_some] at hg
        simpa [groupSizeTooBig] using Nat.not_lt.mpr hg
    constructor
    · intro h3
      unfold danbooruSearch
      rw [htb]
      simp only [Bool.false_eq_true, if_false]
      rw [if_pos (by omega)]
      rfl
    · intro h2
      unfold danbooruSearch
      rw [htb]
      simp only [Bool.false_eq_true, if_false]
      rw [if_neg (by omega)]

/-- Witness for C9: three plain tags are rejected naming the limit 2, two
plain tags plus a qualifier are accepted. -/
theorem danbooru_tag_limit_enforcement_witness :
    danbooruSearch none ["1girl", "blue sky", "order:score", "long_hair"] 2 =
      .rejectedTagLimit 2 "Only 2 tags can be used." ∧
    danbooruSearch none ["1girl", "blue sky", "order:score"] 2 =
      .accepted (filterTerms ["1girl", "blue sky", "order:score"]) :=
  ⟨(danbooru_tag_limit_enforcement.2 none
      ["1girl", "blue sky", "order:score", "long_hair"] (by decide)).1 (by decide),
   (danbooru_tag_limit_enforcement.2 none
      ["1girl", "blue sky", "order:score"] (by decide)).2 (by decide)⟩

/-- Claim C10 (counterexample): constructing a confirmation button
without an abort callback does raise AttributeError, but the button has
already been inserted into the registry when the constructor raises, so
the claimed consequence that no such button can ever be registered in
the button registry is false. -/
theorem magicButtonInit_registered_despite_error :
    (magicButtonInit [] "b1"
        ⟨"Remove", none, none, true, none, 1, none, none, none⟩).2 =
      Except.error
        "AttributeError: When yes_no is given no_callback must be given too" ∧
    ((magicButtonInit [] "b1"
        ⟨"Remove", none, none, true, none, 1, none, none, none⟩).1.map
      Prod.fst) = ["b1"] := by
  constructor <;> rfl

/-- Claim C10 (amended): a confirmation button without an abort callback
always fails at construction with AttributeError, yet the registry
insertion happens before the validation, so the invalid button is left
registered in the button registry; and the documented data or url
requirement is indeed never enforced, because the data field is
defaulted before the check, so a button with neither data nor url
constructs successfully. -/
theorem magicButtonInit_validation_amended
    (registry : List (String × MagicButton)) (newId : String)
    (p : MagicButtonParams) :
    (p.yesNo = true → p.noCallback = none →
      (magicButtonInit registry newId p).2 =
        Except.error
          "AttributeError: When yes_no is given no_callback must be given too" ∧
      (magicButtonInit registry newId p).1 =
        registry ++ [(newId, mkMagicButton newId p)]) ∧
    (p.data = none → p.url = none → p.yesNo = false →
      (magicButtonInit registry newId p).2 = Except.ok (mkMagicButton newId p) ∧
      (magicButtonInit registry newId p).1 =
        registry ++ [(newId, mkMagicButton newId p)]) := by
  constructor
  · intro hy hn
    unfold magicButtonInit
    rw [hy, hn]
    exact ⟨rfl, rfl⟩
  · intro _ _ hy
    unfold magicButtonInit
    rw [hy]
    exact ⟨rfl, rfl⟩

/-- Witness for the amended C10: an invalid confirmation button raises,
and a button with neither data nor url constructs. -/
theorem magicButtonInit_validation_amended_witness :
    (magicButtonInit [] "w1"
        ⟨"X", none, none, true, none, 0, none, none, none⟩).2 =
      Except.error
        "AttributeError: When yes_no is given no_callback must be given too" ∧
    (magicButtonInit [] "w2"
        ⟨"Y", none, none, false, none, 0, none, none, none⟩).2 =
      Except.ok (mkMagicButton "w2"
        ⟨"Y", none, none, false, none, 0, none, none, none⟩) :=
  ⟨((magicButtonInit_validation_amended [] "w1"
      ⟨"X", none, none, true, none, 0, none, none, none⟩).1 rfl rfl).1,
   ((magicButtonInit_validation_amended [] "w2"
      ⟨"Y", none, none, false, none, 0, none, none, none⟩).2 rfl rfl rfl).1⟩

/-- Claim C1 (counterexample): for a supported candidate with no file id
intersection and similarity distances 0.05 and 0.4 on the channel, the
handler refuses the message with the already sent reply, leaves
`added_messages` unchanged and attaches no marker, because any match of
distance at most 0.8 blocks queuing; the claim predicts the 90 percent
marker attached and the message queued. -/
theorem nearDuplicate_markers_counterexample :
    queueMessageMessageHandler ⟨true, ["f1"]⟩ ⟨[], [], []⟩
        [⟨1/20, some 7⟩, ⟨2/5, some 7⟩] 7 =
      (QueueOutcome.rejected, []) ∧
    QueueOutcome.rejected ≠ QueueOutcome.queued (some Marker.ninety) := by
  constructor
  · norm_num [queueMessageMessageHandler, queueBlocked, getSimilarInChannel,
      getAllFileIdsOfChannel, sentFileIdsOfChat, resolvedFileIds, List.filter]
  · intro h
    exact QueueOutcome.noConfusion h

/-- Claim C1 (amended): for a supported candidate message in the
CREATE_SINGLE_POST state whose file ids are not among the channel file
ids, any similarity match filtered to the channel with distance at most
0.8 makes the handler refuse the message (reply that it was already
sent, `added_messages` unchanged, no marker); only when every match has
distance above 0.8 is the message appended to `added_messages`, and then
neither the 90 nor the 70 percent marker can be attached, their
thresholds being below the blocking one. -/
theorem nearDuplicate_threshold_block_amended
    (msg : IncomingMessage) (dedup : DedupInput) (found : List SimEntry)
    (cid : Int) (hs : msg.supported = true)
    (hdisj : msg.fileIds.filter
      (fun i => (getAllFileIdsOfChannel dedup false).contains i) = []) :
    ((∃ e ∈ getSimilarInChannel none found cid false, e.dist ≤ (8 : ℚ)/10) →
      queueMessageMessageHandler msg dedup found cid =
        (.rejected, dedup.addedMessages)) ∧
    ((∀ e ∈ getSimilarInChannel none found cid false, (8 : ℚ)/10 < e.dist) →
      queueMessageMessageHandler msg dedup found cid =
        (.queued none, dedup.addedMessages ++ [some msg.fileIds])) := by
  constructor
  · rintro ⟨e, he, hle⟩
    have hb : queueBlocked msg dedup found cid = true := by
      have hmem : e ∈ (getSimilarInChannel none found cid false).filter
          (fun e => decide (e.dist ≤ (8 : ℚ)/10)) :=
        List.mem_filter.mpr ⟨he, by simpa using hle⟩
      cases hfe : (getSimilarInChannel none found cid false).filter
          (fun e => decide (e.dist ≤ (8 : ℚ)/10)) with
      | nil => rw [hfe] at hmem; simp at hmem
      | cons a l =>
        unfold queueBlocked
        rw [hfe]
        simp
    simp [queueMessageMessageHandler, hs, hb]
  · intro hgt
    have h8 : (getSimilarInChannel none found cid false).filter
        (fun e => decide (e.dist ≤ (8 : ℚ)/10)) = [] := by
      rw [List.filter_eq_nil_iff]
      intro e he
      simpa using not_le.mpr (hgt e he)
    have h1 : (getSimilarInChannel none found cid false).filter
        (fun e => decide (e.dist ≤ (1 : ℚ)/10)) = [] := by
      rw [List.filter_eq_nil_iff]
      intro e he
      have := hgt e he
      simp only [decide_eq_true_eq]
      intro hc
      have : (8 : ℚ)/10 < (1 : ℚ)/10 := lt_of_lt_of_le this hc
      norm_num at this
    have h3 : (getSimilarInChannel none found cid false).filter
        (fun e => decide (e.dist ≤ (3 : ℚ)/10)) = [] := by
      rw [List.filter_eq_nil_iff]
      intro e he
      have := hgt e he
      simp only [decide_eq_true_eq]
      intro hc
      have : (8 : ℚ)/10 < (3 : ℚ)/10 := lt_of_lt_of_le this hc
      norm_num at this
    have hb : queueBlocked msg dedup found cid = false := by
      unfold queueBlocked
      rw [hdisj, h8]
      rfl
    have hm : queueMarker (getSimilarInChannel none found cid false) = none := by
      unfold queueMarker
      rw [h1, h3]
      rfl
    simp [queueMessageMessageHandler, hs, hb, hm]

/-- Witness for the amended C1 on concrete inputs: a distance 0.5 match
is refused outright, and with only a distance 0.9 match the message is
queued without a marker. -/
theorem nearDuplicate_threshold_block_amended_witness :
    queueMessageMessageHandler ⟨true, ["g1"]⟩ ⟨[], [], []⟩
        [⟨1/2, some 3⟩] 3 = (QueueOutcome.rejected, []) ∧
    queueMessageMessageHandler ⟨true, ["g1"]⟩ ⟨[], [], []⟩
        [⟨9/10, some 3⟩] 3 = (QueueOutcome.queued none, [some ["g1"]]) := by
  constructor
  · refine (nearDuplicate_threshold_block_amended ⟨true, ["g1"]⟩ ⟨[], [], []⟩
      [⟨1/2, some 3⟩] 3 rfl rfl).1 ⟨⟨1/2, some 3⟩, ?_, by norm_num⟩
    norm_num [getSimilarInChannel, List.filter]
  · refine (nearDuplicate_threshold_block_amended ⟨true, ["g1"]⟩ ⟨[], [], []⟩
      [⟨9/10, some 3⟩] 3 rfl rfl).2 ?_
    intro e he
    norm_num [getSimilarInChannel, List.filter] at he
    rw [he]
    norm_num

/-- Claim C4 (counterexample): a channel whose document sent_messages
contains the incoming file id is supposed to refuse the message, but
when the channel has an entry in the process sent file id cache (here
the empty list left by publishing a text only message) the stored
sent_messages are ignored and the message is queued, growing
`added_messages`. -/
theorem exactDuplicate_cache_counterexample :
    queueMessageMessageHandler ⟨true, ["f1"]⟩
        ⟨[⟨[some ["f1"]], some []⟩], [], []⟩ [] 7 =
      (QueueOutcome.queued none, [some ["f1"]]) ∧
    "f1" ∈ resolvedFileIds [some ["f1"]] := by
  constructor
  · rfl
  · simp [resolvedFileIds]

/-- Claim C4 (amended): a supported incoming message carrying a file id
present among the ids computed by `get_all_file_ids_of_channel` is
refused and `added_messages` is unchanged; those computed ids cover the
sent message file ids of every channel of the chat that has no entry in
the process sent file id cache (a cached channel contributes its cached
ids instead), together with the queued and added message file ids of the
current channel. -/
theorem exactDuplicate_block_amended
    (msg : IncomingMessage) (dedup : DedupInput) (found : List SimEntry)
    (cid : Int) (hs : msg.supported = true)
    (hid : ∃ i ∈ msg.fileIds, i ∈ getAllFileIdsOfChannel dedup false) :
    queueMessageMessageHandler msg dedup found cid =
      (.rejected, dedup.addedMessages) ∧
    (∀ ch ∈ dedup.chatChannels, ch.cache = none →
      ∀ i ∈ resolvedFileIds ch.sent, i ∈ getAllFileIdsOfChannel dedup false) ∧
    (∀ kv ∈ dedup.queuedMessages,
      ∀ i ∈ resolvedFileIds kv.2, i ∈ getAllFileIdsOfChannel dedup false) ∧
    (∀ i ∈ resolvedFileIds dedup.addedMessages,
      i ∈ getAllFileIdsOfChannel dedup false) := by
  refine ⟨?_, ?_, ?_, ?_⟩
  · obtain ⟨i, hi, hmem⟩ := hid
    have hb : queueBlocked msg dedup found cid = true := by
      have hmf : i ∈ msg.fileIds.filter
          (fun i => (getAllFileIdsOfChannel dedup false).contains i) :=
        List.mem_filter.mpr ⟨hi, List.elem_eq_true_of_mem hmem⟩
      cases hfe : msg.fileIds.filter
          (fun i => (getAllFileIdsOfChannel dedup false).contains i) with
      | nil => rw [hfe] at hmf; simp at hmf
      | cons a l =>
        unfold queueBlocked
        rw [hfe]
        simp
    simp [queueMessageMessageHandler, hs, hb]
  · intro ch hch hcache i hi
    unfold getAllFileIdsOfChannel
    refine List.mem_append.mpr (Or.inl ?_)
    unfold sentFileIdsOfChat
    refine List.mem_flatten.mpr ⟨resolvedFileIds ch.sent, ?_, hi⟩
    refine List.mem_map.mpr ⟨ch, hch, ?_⟩
    rw [hcache]
  · intro kv hkv i hi
    unfold getAllFileIdsOfChannel
    refine List.mem_append.mpr (Or.inr (List.mem_append.mpr (Or.inl ?_)))
    exact List.mem_flatten.mpr ⟨resolvedFileIds kv.2, List.mem_map.mpr ⟨kv, hkv, rfl⟩, hi⟩
  · intro i hi
    unfold getAllFileIdsOfChannel
    exact List.mem_append.mpr (Or.inr (List.mem_append.mpr (Or.inr hi)))

/-- Witness for the amended C4: a file id already among the added message
ids of the channel makes the handler refuse the message. -/
theorem exactDuplicate_block_amended_witness :
    queueMessageMessageHandler ⟨true, ["f2"]⟩ ⟨[], [], [some ["f2"]]⟩ [] 7 =
      (QueueOutcome.rejected, [some ["f2"]]) :=
  (exactDuplicate_block_amended ⟨true, ["f2"]⟩ ⟨[], [], [some ["f2"]]⟩ [] 7 rfl
    ⟨"f2", by simp, by simp [getAllFileIdsOfChannel, sentFileIdsOfChat,
      resolvedFileIds]⟩).1

theorem chunksGo_getElem {α : Type} (k : Nat) :
    ∀ (i fuel : Nat) (l : List α), l.length ≤ fuel →
      ∀ h : i < (chunksGo k fuel l).length,
        (chunksGo k fuel l)[i] = (l.drop ((k + 1) * i)).take (k + 1) := by
  intro i
  induction i with
  | zero =>
    intro fuel l hl h
    match fuel, l with
    | _, [] => simp [chunksGo] at h
    | 0, x :: xs => simp at hl
    | fuel + 1, x :: xs => simp [chunksGo]
  | succ i ih =>
    intro fuel l hl h
    match fuel, l with
    | _, [] => simp [chunksGo] at h
    | 0, x :: xs => simp at hl
    | fuel + 1, x :: xs =>
      have hxs : (xs.drop k).length ≤ fuel := by
        simp only [List.length_cons] at hl
        simp only [List.length_drop]
        omega
      have hlen : i < (chunksGo k fuel (xs.drop k)).length := by
        simp only [chunksGo, List.length_cons] at h
        omega
      have harith : (k + 1) * (i + 1) = ((k + 1) * i + k) + 1 := by ring
      calc (chunksGo k (fuel + 1) (x :: xs))[i + 1]
          = (chunksGo k fuel (xs.drop k))[i] := by
            simp [chunksGo]
        _ = ((xs.drop k).drop ((k + 1) * i)).take (k + 1) := ih fuel (xs.drop k) hxs hlen
        _ = (xs.drop ((k + 1) * i + k)).take (k + 1) := by
            rw [List.drop_drop]
            congr 2
            omega
        _ = ((x :: xs).drop ((k + 1) * (i + 1))).take (k + 1) := by
            rw [harith, List.drop_succ_cons]

theorem chunksGo_flatten {α : Type} (k : Nat) :
    ∀ (fuel : Nat) (l : List α), l.length ≤ fuel →
      (chunksGo k fuel l).flatten = l := by
  intro fuel
  induction fuel with
  | zero =>
    intro l hl
    have : l = [] := List.eq_nil_of_length_eq_zero (Nat.le_zero.mp hl)
    subst this
    rfl
  | succ fuel ih =>
    intro l hl
    match l with
    | [] => rfl
    | x :: xs =>
      have hxs : (xs.drop k).length ≤ fuel := by
        simp only [List.length_cons] at hl
        simp only [List.length_drop]
        omega
      simp only [chunksGo, List.flatten_cons, ih (xs.drop k) hxs,
        List.take_succ_cons, List.cons_append, List.take_append_drop]

theorem chunks_getElem {α : Type} (l : List α) (bk : Nat) (i : Nat)
    (h : i < (chunks l (bk + 1)).length) :
    (chunks l (bk + 1))[i] = (l.drop ((bk + 1) * i)).take (bk + 1) :=
  chunksGo_getElem bk i l.length l (Nat.le_refl _) h

theorem chunks_flatten {α : Type} (l : List α) (bk : Nat) :
    (chunks l (bk + 1)).flatten = l :=
  chunksGo_flatten bk l.length l (Nat.le_refl _)

/-- The normal confirmation path of the scheduling wizard (no extend, no
reschedule, no randomize) reduces to chunking the added messages and
merging the keyed batches into the schedule. -/
theorem scheduleCallbackQuery_normal (t d : Int) (b : Nat)
    (st : ScheduleState) :
    scheduleCallbackQuery t d b false false false id st =
      { addedMessages := [],
        scheduledMessages := dictUpdate st.scheduledMessages
          ((chunks st.addedMessages b).enum.map
            (fun kc => (toString (t + d * (kc.1 : Int)), kc.2))) } := rfl

/-- Claim C2: confirming the scheduling wizard with start `t`, delay `d`
and batch size `b` chunks `added_messages` into consecutive groups of
`b` messages (their concatenation is the original list); the batch of
index `k` is stored in `scheduled_messages` under the string key of the
integer epoch seconds `t + k * d`; and `added_messages` is empty
afterwards.  The key distinctness hypothesis holds whenever `d` is not
zero, since the underlying integers then differ. -/
theorem schedule_confirm_chunks_and_keys
    (t d : Int) (b : Nat) (st : ScheduleState) (hb : 0 < b)
    (hinj : ∀ j, j < (chunks st.addedMessages b).length →
      ∀ k, k < (chunks st.addedMessages b).length →
        toString (t + d * (j : Int)) = toString (t + d * (k : Int)) → j = k) :
    (scheduleCallbackQuery t d b false false false id st).addedMessages = [] ∧
    (chunks st.addedMessages b).flatten = st.addedMessages ∧
    ∀ k, k < (chunks st.addedMessages b).length →
      lookupKey
        (scheduleCallbackQuery t d b false false false id st).scheduledMessages
        (toString (t + d * (k : Int))) =
      some ((st.addedMessages.drop (b * k)).take b) := by
  obtain ⟨bk, rfl⟩ : ∃ bk, b = bk + 1 := ⟨b - 1, by omega⟩
  refine ⟨rfl, chunks_flatten st.addedMessages bk, ?_⟩
  intro k hk
  rw [scheduleCallbackQuery_normal]
  have hk2 : k < (chunks st.addedMessages (bk + 1)).enum.length := by
    simpa [List.enum_length] using hk
  have hk3 : k < ((chunks st.addedMessages (bk + 1)).enum.map
      (fun kc => (toString (t + d * (kc.1 : Int)), kc.2))).length := by
    simpa [List.length_map] using hk2
  have hgetel : ((chunks st.addedMessages (bk + 1)).enum.map
      (fun kc => (toString (t + d * (kc.1 : Int)), kc.2)))[k] =
      (toString (t + d * (k : Int)), (chunks st.addedMessages (bk + 1))[k]) := by
    simp [List.getElem_map, List.getElem_enum]
  have hmem := List.getElem_mem hk3
  rw [hgetel] at hmem
  have hval : (chunks st.addedMessages (bk + 1))[k] =
      (st.addedMessages.drop ((bk + 1) * k)).take (bk + 1) :=
    chunks_getElem st.addedMessages bk k hk
  have hnd : (((chunks st.addedMessages (bk + 1)).enum.map
      (fun kc => (toString (t + d * (kc.1 : Int)), kc.2))).map Prod.fst).Nodup := by
    have h1 : ((chunks st.addedMessages (bk + 1)).enum.map
        (fun kc => (toString (t + d * (kc.1 : Int)), kc.2))).map Prod.fst =
        (List.range (chunks st.addedMessages (bk + 1)).length).map
          (fun (j : Nat) => toString (t + d * (j : Int))) := by
      calc ((chunks st.addedMessages (bk + 1)).enum.map
          (fun kc => (toString (t + d * (kc.1 : Int)), kc.2))).map Prod.fst
          = (chunks st.addedMessages (bk + 1)).enum.map
            (Prod.fst ∘ fun kc => (toString (t + d * (kc.1 : Int)), kc.2)) := by
              rw [List.map_map]
        _ = (chunks st.addedMessages (bk + 1)).enum.map
            ((fun (j : Nat) => toString (t + d * (j : Int))) ∘ Prod.fst) := rfl
        _ = ((chunks st.addedMessages (bk + 1)).enum.map Prod.fst).map
            (fun (j : Nat) => toString (t + d * (j : Int))) := by rw [List.map_map]
        _ = (List.range (chunks st.addedMessages (bk + 1)).length).map
            (fun (j : Nat) => toString (t + d * (j : Int))) := by
              rw [List.enum_map_fst]
    rw [h1]
    refine List.Nodup.map_on ?_ (List.nodup_range _)
    intro x hx y hy hxy
    exact hinj x (List.mem_range.mp hx) y (List.mem_range.mp hy) hxy
  rw [lookupKey_dictUpdate _ _ _ st.scheduledMessages hmem hnd, hval]

/-- Witness for C2 at the concrete spec instance: start 2024-01-01T00:00Z
(epoch 1704067200), delay one hour, batch size 2 and three queued
messages give the two batches of the claim and an empty added list. -/
theorem schedule_confirm_chunks_and_keys_witness :
    (scheduleCallbackQuery 1704067200 3600 2 false false false id
      ⟨[1, 2, 3], []⟩).addedMessages = [] ∧
    lookupKey (scheduleCallbackQuery 1704067200 3600 2 false false false id
      ⟨[1, 2, 3], []⟩).scheduledMessages "1704067200" = some [1, 2] ∧
    lookupKey (scheduleCallbackQuery 1704067200 3600 2 false false false id
      ⟨[1, 2, 3], []⟩).scheduledMessages "1704070800" = some [3] := by
  have h := schedule_confirm_chunks_and_keys 1704067200 3600 2 ⟨[1, 2, 3], []⟩
    (by decide) (by decide)
  refine ⟨h.1, ?_, ?_⟩
  · have h0 := h.2.2 0 (by decide)
    rw [show (toString ((1704067200 : Int) + 3600 * ((0 : Nat) : Int))) =
          "1704067200" from rfl,
        show (([1, 2, 3].drop (2 * 0)).take 2 : List Nat) = [1, 2] from rfl] at h0
    exact h0
  · have h1 := h.2.2 1 (by decide)
    rw [show (toString ((1704067200 : Int) + 3600 * ((1 : Nat) : Int))) =
          "1704070800" from rfl,
        show (([1, 2, 3].drop (2 * 1)).take 2 : List Nat) = [3] from rfl] at h1
    exact h1

theorem magicMessageHandler_answer (R : List (String × MagicButton))
    (tid : String) (btn orig : MagicButton) (answer y2 n2 : String)
    (hlook : lookupKey R tid = some btn)
    (hbtn : btn.yesNo = false)
    (hraw : lookupKey btn.data "yes_no_answer" = some answer)
    (hans : answer ≠ "")
    (horef : lookupKey btn.data "original" = some orig.id)
    (hoid : orig.id ≠ "")
    (holook : lookupKey R orig.id = some orig) :
    magicMessageHandler R tid y2 n2 =
      .ok (.invoke (if answer = "yes" then some btn.callback else btn.noCallback)
                   (if answer = "yes" then btn.callbackArgs else btn.noCallbackArgs)
                   orig.data true, R) := by
  unfold magicMessageHandler
  rw [hlook]
  simp [hbtn, hraw, hans, horef, hoid, holook]

/-- Claim C7: a confirmation button (yes no mode with an abort callback)
first replaces the message with a Yes or No prompt built from two
derived buttons; tapping Yes invokes the original callback with the
original data payload and preset arguments; tapping No invokes the abort
callback instead; and a button without confirmation (and no answer or
back reference marker in its payload) invokes its callback directly on
the first tap. -/
theorem magicButton_confirmation_roundtrip
    (R : List (String × MagicButton)) (b : MagicButton) (y n y2 n2 : String)
    (hb : lookupKey R b.id = some b)
    (hyes : b.yesNo = true)
    (hid : b.id ≠ "")
    (hy : lookupKey R y = none) (hn : lookupKey R n = none) (hyn : y ≠ n)
    (b2 : MagicButton) (h2 : lookupKey R b2.id = some b2)
    (h2yn : b2.yesNo = false)
    (h2a : lookupKey b2.data "yes_no_answer" = none)
    (h2o : lookupKey b2.data "original" = none) :
    (magicMessageHandler R b.id y n =
      .ok (.confirmationPrompt b.yesNoText y n,
        R ++ [(y, magicCopyForAnswer b y "Yes" "yes"),
              (n, magicCopyForAnswer b n "No" "no")])) ∧
    (magicMessageHandler (R ++ [(y, magicCopyForAnswer b y "Yes" "yes"),
        (n, magicCopyForAnswer b n "No" "no")]) y y2 n2 =
      .ok (.invoke (some b.callback) b.callbackArgs b.data true,
        R ++ [(y, magicCopyForAnswer b y "Yes" "yes"),
              (n, magicCopyForAnswer b n "No" "no")])) ∧
    (magicMessageHandler (R ++ [(y, magicCopyForAnswer b y "Yes" "yes"),
        (n, magicCopyForAnswer b n "No" "no")]) n y2 n2 =
      .ok (.invoke b.noCallback b.noCallbackArgs b.data true,
        R ++ [(y, magicCopyForAnswer b y "Yes" "yes"),
              (n, magicCopyForAnswer b n "No" "no")])) ∧
    (magicMessageHandler R b2.id y n =
      .ok (.invoke (some b2.callback) b2.callbackArgs b2.data false, R)) := by
  have hy' : lookupKey (R ++ [(y, magicCopyForAnswer b y "Yes" "yes"),
      (n, magicCopyForAnswer b n "No" "no")]) y =
      some (magicCopyForAnswer b y "Yes" "yes") := by
    rw [lookupKey_append_of_none _ hy]
    simp [lookupKey]
  have hn' : lookupKey (R ++ [(y, magicCopyForAnswer b y "Yes" "yes"),
      (n, magicCopyForAnswer b n "No" "no")]) n =
      some (magicCopyForAnswer b n "No" "no") := by
    rw [lookupKey_append_of_none _ hn]
    simp [lookupKey, hyn]
  have hb' : lookupKey (R ++ [(y, magicCopyForAnswer b y "Yes" "yes"),
      (n, magicCopyForAnswer b n "No" "no")]) b.id = some b :=
    lookupKey_append_of_some _ hb
  refine ⟨?_, ?_, ?_, ?_⟩
  · unfold magicMessageHandler
    rw [hb]
    simp [hyes]
  · exact magicMessageHandler_answer _ y (magicCopyForAnswer b y "Yes" "yes") b
      "yes" y2 n2 hy' rfl rfl (by decide) rfl hid hb'
  · exact magicMessageHandler_answer _ n (magicCopyForAnswer b n "No" "no") b
      "no" y2 n2 hn' rfl rfl (by decide) rfl hid hb'
  · unfold magicMessageHandler
    rw [h2]
    simp [h2yn, h2a, h2o]

/-- Witness for C7 on a concrete registry holding one confirmation
button and one plain button. -/
theorem magicButton_confirmation_roundtrip_witness :
    (magicMessageHandler
        [("id1", ⟨"id1", "Remove", [("channel", "5")], none, true,
            "Are you sure?", 10, [7], some 11, [8]⟩),
         ("id2", ⟨"id2", "List", [], none, false,
            "Are you sure?", 20, [], none, []⟩)] "id1" "idY" "idN" =
      .ok (.confirmationPrompt "Are you sure?" "idY" "idN",
        [("id1", ⟨"id1", "Remove", [("channel", "5")], none, true,
            "Are you sure?", 10, [7], some 11, [8]⟩),
         ("id2", ⟨"id2", "List", [], none, false,
            "Are you sure?", 20, [], none, []⟩)] ++
        [("idY", magicCopyForAnswer ⟨"id1", "Remove", [("channel", "5")], none,
            true, "Are you sure?", 10, [7], some 11, [8]⟩ "idY" "Yes" "yes"),
         ("idN", magicCopyForAnswer ⟨"id1", "Remove", [("channel", "5")], none,
            true, "Are you sure?", 10, [7], some 11, [8]⟩ "idN" "No" "no")])) ∧
    (magicMessageHandler
        ([("id1", ⟨"id1", "Remove", [("channel", "5")], none, true,
            "Are you sure?", 10, [7], some 11, [8]⟩),
          ("id2", ⟨"id2", "List", [], none, false,
            "Are you sure?", 20, [], none, []⟩)] ++
         [("idY", magicCopyForAnswer ⟨"id1", "Remove", [("channel", "5")], none,
             true, "Are you sure?", 10, [7], some 11, [8]⟩ "idY" "Yes" "yes"),
          ("idN", magicCopyForAnswer ⟨"id1", "Remove", [("channel", "5")], none,
             true, "Are you sure?", 10, [7], some 11, [8]⟩ "idN" "No" "no")])
        "idY" "idY2" "idN2" =
      .ok (.invoke (some 10) [7] [("channel", "5")] true,
        [("id1", ⟨"id1", "Remove", [("channel", "5")], none, true,
            "Are you sure?", 10, [7], some 11, [8]⟩),
         ("id2", ⟨"id2", "List", [], none, false,
            "Are you sure?", 20, [], none, []⟩)] ++
        [("idY", magicCopyForAnswer ⟨"id1", "Remove", [("channel", "5")], none,
            true, "Are you sure?", 10, [7], some 11, [8]⟩ "idY" "Yes" "yes"),
         ("idN", magicCopyForAnswer ⟨"id1", "Remove", [("channel", "5")], none,
            true, "Are you sure?", 10, [7], some 11, [8]⟩ "idN" "No" "no")])) := by
  have h := magicButton_confirmation_roundtrip
    [("id1", ⟨"id1", "Remove", [("channel", "5")], none, true,
        "Are you sure?", 10, [7], some 11, [8]⟩),
     ("id2", ⟨"id2", "List", [], none, false,
        "Are you sure?", 20, [], none, []⟩)]
    ⟨"id1", "Remove", [("channel", "5")], none, true,
        "Are you sure?", 10, [7], some 11, [8]⟩
    "idY" "idN" "idY2" "idN2" rfl rfl (by decide) rfl rfl (by decide)
    ⟨"id2", "List", [], none, false, "Are you sure?", 20, [], none, []⟩
    rfl rfl rfl rfl
  exact ⟨h.1, h.2.1⟩

theorem replaceId_eq_oid_iff (m : MigMessage) (ch : MigChannel) (r0 : MsgRef) :
    (replaceId m ch r0 = MsgRef.oid m.newId ↔
      ((r0 = MsgRef.num m.oldId ∧ ch.user = m.chatRef) ∨
        r0 = MsgRef.oid m.newId)) := by
  unfold replaceId
  by_cases hc : r0 = MsgRef.num m.oldId ∧ ch.user = m.chatRef
  · rw [if_pos hc]
    simp [hc]
  · rw [if_neg hc]
    constructor
    · intro h
      exact Or.inr h
    · rintro (h | h)
      · exact absurd h hc
      · exact h

theorem replaceId_eq_self (m : MigMessage) (ch : MigChannel) (r0 : MsgRef)
    (hc : ¬(r0 = MsgRef.num m.oldId ∧ ch.user = m.chatRef)) :
    replaceId m ch r0 = r0 := by
  unfold replaceId
  rw [if_neg hc]

theorem migration_lists_char (m : MigMessage) (ch : MigChannel)
    (l : List MsgRef) (r : MsgRef) :
    (r ∈ (l.map (replaceId m ch)).filter oldIdFilter ↔
      ((∃ r0 ∈ l, replaceId m ch r0 = r) ∧ oldIdFilter r = true)) := by
  simp [List.mem_filter, List.mem_map]

theorem mapQueueField_asMap (f : MsgRef → MsgRef) (qf : QueueField) :
    ∃ mm, mapQueueField f qf = .asMap mm ∧
      (∀ qm, qf = .asMap qm → mm = qm.map (fun kv => (kv.1, kv.2.map f))) ∧
      (∀ l, qf = .legacyList l → mm = []) := by
  cases qf with
  | legacyList l =>
    exact ⟨[], rfl, fun qm h => by simp at h, fun _ _ => rfl⟩
  | asMap qm =>
    refine ⟨_, rfl, fun qm2 h => ?_, fun l h => by simp at h⟩
    injection h with h
    rw [h]

theorem saveChannel_asMap (ch : MigChannel)
    (qm iqm : List (String × List MsgRef))
    (hq : ch.queuedMessages = .asMap qm)
    (hiq : ch.importMessagesQueue = .asMap iqm) :
    saveChannel ch = .ok { ch with
      importMessages := ch.importMessages.filter oldIdFilter,
      sentMessages := ch.sentMessages.filter oldIdFilter,
      addedMessages := ch.addedMessages.filter oldIdFilter,
      queuedMessages :=
        .asMap (qm.map (fun kv => (kv.1, kv.2.filter oldIdFilter))),
      importMessagesQueue :=
        .asMap (iqm.map (fun kv => (kv.1, kv.2.filter oldIdFilter))) } := by
  obtain ⟨u, c, im, sm, am, qf, iqf⟩ := ch
  have hq2 : qf = QueueField.asMap qm := hq
  have hiq2 : iqf = QueueField.asMap iqm := hiq
  subst hq2
  subst hiq2
  rfl

/-- Claim C8 (counterexample): a channel settings document whose
administering user matches the sender of the migrated message (and whose
chat matches the chat of the message) still has its reference stripped
rather than repointed, because the code compares the channel `user`
field with the `chat` field of the message, which are references into
different collections; the claim predicts the reference is repointed to
the new key. -/
theorem migration_user_chat_comparison_counterexample :
    migrateAll [⟨5, "newkey", "chatC", "userU"⟩]
        ⟨"userU", "chatC", [], [MsgRef.num 5], [], .asMap [], .asMap []⟩ =
      Except.ok ⟨"userU", "chatC", [], [], [], .asMap [], .asMap []⟩ ∧
    claimReplaceId ⟨5, "newkey", "chatC", "userU"⟩
        ⟨"userU", "chatC", [], [MsgRef.num 5], [], .asMap [], .asMap []⟩
        (MsgRef.num 5) = MsgRef.oid "newkey" := by
  constructor
  · rfl
  · rfl

/-- Claim C8 (amended): the migration rewrites every reference list so
that a reference is repointed from the old numeric id to the new key
exactly when it equals the old id and the channel document `user` field
equals the `chat` field of the migrated message document (not its
administering user); after the rewrite, every reference still shaped
like a bare digit string is stripped from every list, including the
batch keyed queue maps, and a queue field still in the legacy list shape
is normalized to an empty map. -/
theorem migration_rewrite_and_strip_amended (m : MigMessage)
    (ch : MigChannel) (hfresh : ¬ pyIsDigit m.newId = true) :
    ∃ ch', migrateAll [m] ch = Except.ok ch' ∧
      (∀ r, r ∈ ch'.sentMessages ↔
        ((∃ r0 ∈ ch.sentMessages, replaceId m ch r0 = r) ∧
          oldIdFilter r = true)) ∧
      (∀ r, r ∈ ch'.addedMessages ↔
        ((∃ r0 ∈ ch.addedMessages, replaceId m ch r0 = r) ∧
          oldIdFilter r = true)) ∧
      (∀ r, r ∈ ch'.importMessages ↔
        ((∃ r0 ∈ ch.importMessages, replaceId m ch r0 = r) ∧
          oldIdFilter r = true)) ∧
      (∀ r0, (replaceId m ch r0 = MsgRef.oid m.newId ↔
          ((r0 = MsgRef.num m.oldId ∧ ch.user = m.chatRef) ∨
            r0 = MsgRef.oid m.newId)) ∧
        (¬(r0 = MsgRef.num m.oldId ∧ ch.user = m.chatRef) →
          replaceId m ch r0 = r0)) ∧
      (MsgRef.oid m.newId ∈ ch'.sentMessages ↔
        (MsgRef.num m.oldId ∈ ch.sentMessages ∧ ch.user = m.chatRef) ∨
          MsgRef.oid m.newId ∈ ch.sentMessages) ∧
      (∀ qm, ch.queuedMessages = QueueField.asMap qm →
        ch'.queuedMessages = QueueField.asMap (qm.map
          (fun kv => (kv.1, (kv.2.map (replaceId m ch)).filter oldIdFilter)))) ∧
      (∀ l, ch.queuedMessages = QueueField.legacyList l →
        ch'.queuedMessages = QueueField.asMap []) := by
  obtain ⟨mm, hmm, hmmMap, hmmLegacy⟩ :=
    mapQueueField_asMap (replaceId m ch) ch.queuedMessages
  obtain ⟨imm, himm, _, _⟩ :=
    mapQueueField_asMap (replaceId m ch) ch.importMessagesQueue
  have hsave := saveChannel_asMap (migrateChannels m ch) mm imm hmm himm
  have hall : migrateAll [m] ch = Except.ok { migrateChannels m ch with
      importMessages := (migrateChannels m ch).importMessages.filter oldIdFilter,
      sentMessages := (migrateChannels m ch).sentMessages.filter oldIdFilter,
      addedMessages := (migrateChannels m ch).addedMessages.filter oldIdFilter,
      queuedMessages := QueueField.asMap
        (mm.map (fun kv => (kv.1, kv.2.filter oldIdFilter))),
      importMessagesQueue := QueueField.asMap
        (imm.map (fun kv => (kv.1, kv.2.filter oldIdFilter))) } := hsave
  refine ⟨_, hall, ?_, ?_, ?_, ?_, ?_, ?_, ?_⟩
  · intro r
    exact migration_lists_char m ch ch.sentMessages r
  · intro r
    exact migration_lists_char m ch ch.addedMessages r
  · intro r
    exact migration_lists_char m ch ch.importMessages r
  · intro r0
    exact ⟨replaceId_eq_oid_iff m ch r0, replaceId_eq_self m ch r0⟩
  · have hf : oldIdFilter (MsgRef.oid m.newId) = true := by
      simp [oldIdFilter, strOfRef, hfresh]
    constructor
    · intro hmem
      obtain ⟨⟨r0, hr0, hrep⟩, _⟩ :=
        (migration_lists_char m ch ch.sentMessages _).mp hmem
      rcases (replaceId_eq_oid_iff m ch r0).mp hrep with ⟨h1, h2⟩ | h1
      · exact Or.inl ⟨h1 ▸ hr0, h2⟩
      · exact Or.inr (h1 ▸ hr0)
    · intro hmem
      apply (migration_lists_char m ch ch.sentMessages _).mpr
      refine ⟨?_, hf⟩
      rcases hmem with ⟨hnum, huser⟩ | hoid
      · exact ⟨MsgRef.num m.oldId, hnum, by
          unfold replaceId
          rw [if_pos ⟨rfl, huser⟩]⟩
      · exact ⟨MsgRef.oid m.newId, hoid,
          (replaceId_eq_oid_iff m ch _).mpr (Or.inr rfl)⟩
  · intro qm hqm
    show QueueField.asMap (mm.map (fun kv => (kv.1, kv.2.filter oldIdFilter))) = _
    rw [hmmMap qm hqm, List.map_map]
    rfl
  · intro l hql
    show QueueField.asMap (mm.map (fun kv => (kv.1, kv.2.filter oldIdFilter))) = _
    rw [hmmLegacy l hql]
    rfl

/-- Witness for the amended C8 at a concrete channel: the numeric
reference 5 matching neither guard is stripped, a reference whose
channel user field happens to equal the message chat field is repointed,
and a legacy queue list is normalized away. -/
theorem migration_rewrite_and_strip_amended_witness :
    ∃ ch', migrateAll [⟨5, "k1", "x", "u1"⟩]
        ⟨"x", "c1", [], [MsgRef.num 5, MsgRef.oid "other"], [],
          QueueField.legacyList [MsgRef.num 9], QueueField.asMap []⟩ =
      Except.ok ch' ∧
      (MsgRef.oid "k1" ∈ ch'.sentMessages ↔
        (MsgRef.num 5 ∈ [MsgRef.num 5, MsgRef.oid "other"] ∧ "x" = "x") ∨
          MsgRef.oid "k1" ∈ [MsgRef.num 5, MsgRef.oid "other"]) ∧
      ch'.queuedMessages = QueueField.asMap [] := by
  obtain ⟨ch', h1, _, _, _, _, h6, _, h8⟩ :=
    migration_rewrite_and_strip_amended ⟨5, "k1", "x", "u1"⟩
      ⟨"x", "c1", [], [MsgRef.num 5, MsgRef.oid "other"], [],
        QueueField.legacyList [MsgRef.num 9], QueueField.asMap []⟩ (by decide)
  exact ⟨ch', h1, h6, h8 [MsgRef.num 9] rfl⟩

theorem bucketOf_mem (em : String) (users : List Nat) :
    ∀ l : List (String × List Nat), bucketOf l em = some users →
      (em, users) ∈ l := by
  intro l
  induction l with
  | nil =>
    intro h
    simp [bucketOf] at h
  | cons p rest ih =>
    intro h
    rw [bucketOf] at h
    by_cases hp : p.1 = em
    · rw [if_pos hp] at h
      injection h with h
      have hpe : (em, users) = p := by rw [← hp, ← h]
      rw [hpe]
      exact List.mem_cons_self _ _
    · rw [if_neg hp] at h
      exact List.mem_cons_of_mem _ (ih h)

theorem bucketOf_isSome_keys (em : String) :
    ∀ l : List (String × List Nat),
      (bucketOf l em).isSome = true ↔ em ∈ l.map Prod.fst := by
  intro l
  induction l with
  | nil => simp [bucketOf]
  | cons p rest ih =>
    rw [bucketOf]
    by_cases hp : p.1 = em
    · simp [hp]
    · simp only [if_neg hp, List.map_cons, List.mem_cons, ih]
      constructor
      · intro h
        exact Or.inr h
      · rintro (h | h)
        · exact absurd h.symm hp
        · exact h

theorem bucketOf_eq_of_nodup (em : String) (users : List Nat)
    (p : String × List Nat) :
    ∀ l : List (String × List Nat), (l.map Prod.fst).Nodup →
      bucketOf l em = some users → p ∈ l → p.1 = em → p.2 = users := by
  intro l
  induction l with
  | nil =>
    intro _ _ hp _
    simp at hp
  | cons q rest ih =>
    intro hnd hb hp hpem
    simp only [List.map_cons, List.nodup_cons] at hnd
    rw [bucketOf] at hb
    by_cases hq : q.1 = em
    · rw [if_pos hq] at hb
      injection hb with hb
      rcases List.mem_cons.mp hp with heq | hmem
      · rw [heq]
        exact hb
      · exfalso
        have hkey : p.1 ∈ rest.map Prod.fst := List.mem_map_of_mem _ hmem
        rw [hpem, ← hq] at hkey
        exact hnd.1 hkey
    · rw [if_neg hq] at hb
      rcases List.mem_cons.mp hp with heq | hmem
      · exfalso
        rw [heq] at hpem
        exact hq hpem
      · exact ih hnd.2 hb hmem hpem

theorem count_le_userOcc (l : List (String × List Nat)) (u : Nat)
    (p : String × List Nat) (hp : p ∈ l) :
    p.2.count u ≤ userOcc l u := by
  unfold userOcc
  exact List.single_le_sum (fun x _ => Nat.zero_le x) _
    (List.mem_map_of_mem _ hp)

theorem two_le_userOcc (u : Nat) (p q : String × List Nat) (hne : p ≠ q) :
    ∀ l : List (String × List Nat), p ∈ l → q ∈ l →
      p.2.count u + q.2.count u ≤ userOcc l u := by
  intro l
  induction l with
  | nil =>
    intro hp _
    simp at hp
  | cons x rest ih =>
    intro hp hq
    unfold userOcc
    simp only [List.map_cons, List.sum_cons]
    rcases List.mem_cons.mp hp with hpx | hpr
    · rcases List.mem_cons.mp hq with hqx | hqr
      · exact absurd (hpx.trans hqx.symm) hne
      · have hres := count_le_userOcc rest u q hqr
        unfold userOcc at hres
        subst hpx
        omega
    · rcases List.mem_cons.mp hq with hqx | hqr
      · have hres := count_le_userOcc rest u p hpr
        unfold userOcc at hres
        subst hqx
        omega
      · have hres := ih hpr hqr
        unfold userOcc at hres
        omega

theorem userOcc_le_one_of_buckets (em : String) (u : Nat) :
    ∀ r : List (String × List Nat), (r.map Prod.fst).Nodup →
      (∀ p ∈ r, (p.1 = em → p.2.count u ≤ 1) ∧ (p.1 ≠ em → p.2.count u = 0)) →
      userOcc r u ≤ 1 := by
  intro r
  induction r with
  | nil =>
    intro _ _
    simp [userOcc]
  | cons p rest ih =>
    intro hnd hch
    simp only [List.map_cons, List.nodup_cons] at hnd
    unfold userOcc
    simp only [List.map_cons, List.sum_cons]
    by_cases hpe : p.1 = em
    · have h1 := (hch p (List.mem_cons_self _ _)).1 hpe
      have hrest : (rest.map (fun p => p.2.count u)).sum = 0 := by
        apply List.sum_eq_zero
        intro x hx
        obtain ⟨q, hq, rfl⟩ := List.mem_map.mp hx
        apply (hch q (List.mem_cons_of_mem _ hq)).2
        intro hqe
        apply hnd.1
        have hkey : q.1 ∈ rest.map Prod.fst := List.mem_map_of_mem _ hq
        rw [hqe, ← hpe] at hkey
        exact hkey
      omega
    · have h0 := (hch p (List.mem_cons_self _ _)).2 hpe
      have hres := ih hnd.2 (fun q hq => hch q (List.mem_cons_of_mem _ hq))
      unfold userOcc at hres
      omega

theorem reactionTap_buckets (reactions : List (String × List Nat))
    (em : String) (u : Nat)
    (hnodup : (reactions.map Prod.fst).Nodup)
    (hmem : em ∈ reactions.map Prod.fst)
    (hocc : userOcc reactions u ≤ 1) :
    ∃ r, reactionTap reactions em u = some r ∧
      r.map Prod.fst = reactions.map Prod.fst ∧
      (∀ p ∈ r, (p.1 = em → p.2.count u = 1) ∧ (p.1 ≠ em → p.2.count u = 0)) ∧
      userOcc r u ≤ 1 := by
  obtain ⟨users, hb⟩ : ∃ users, bucketOf reactions em = some users := by
    cases hbb : bucketOf reactions em with
    | none =>
      rw [← bucketOf_isSome_keys] at hmem
      rw [hbb] at hmem
      simp at hmem
    | some users => exact ⟨users, rfl⟩
  by_cases hu : u ∈ users
  · have hchar : ∀ p ∈ reactions,
        (p.1 = em → p.2.count u = 1) ∧ (p.1 ≠ em → p.2.count u = 0) := by
      intro p hp
      have hemmem : (em, users) ∈ reactions := bucketOf_mem em users reactions hb
      constructor
      · intro hpem
        have hpu : p.2 = users :=
          bucketOf_eq_of_nodup em users p reactions hnodup hb hp hpem
        have hge : 0 < p.2.count u := by
          rw [hpu]
          exact List.count_pos_iff.mpr hu
        have hle := count_le_userOcc reactions u p hp
        omega
      · intro hpne
        by_contra hcnt
        have h1 : 0 < p.2.count u := Nat.pos_of_ne_zero hcnt
        have hqc : 0 < (em, users).2.count u := List.count_pos_iff.mpr hu
        have hpq : p ≠ (em, users) := by
          intro he
          rw [he] at hpne
          exact hpne rfl
        have h2 := two_le_userOcc u p (em, users) hpq reactions hp hemmem
        omega
    refine ⟨reactions, ?_, rfl, hchar, hocc⟩
    unfold reactionTap
    rw [hb]
    simp [hu]
  · have hkeys : (((reactions.map
        (fun p => (p.1, if u ∈ p.2 then p.2.erase u else p.2))).map
        (fun p => if p.1 = em then (p.1, p.2 ++ [u]) else p)).map Prod.fst) =
        reactions.map Prod.fst := by
      rw [List.map_map, List.map_map]
      apply List.map_congr_left
      intro p _
      by_cases h1 : p.1 = em <;> simp [h1]
    have hchar : ∀ p' ∈ (reactions.map
        (fun p => (p.1, if u ∈ p.2 then p.2.erase u else p.2))).map
        (fun p => if p.1 = em then (p.1, p.2 ++ [u]) else p),
        (p'.1 = em → p'.2.count u = 1) ∧ (p'.1 ≠ em → p'.2.count u = 0) := by
      intro p' hp'
      obtain ⟨q1, hq1, rfl⟩ := List.mem_map.mp hp'
      obtain ⟨q, hq, rfl⟩ := List.mem_map.mp hq1
      have hcnt0 : (if u ∈ q.2 then q.2.erase u else q.2).count u = 0 := by
        by_cases huq : u ∈ q.2
        · rw [if_pos huq, List.count_erase_self]
          have hle := count_le_userOcc reactions u q hq
          have hge : 0 < q.2.count u := List.count_pos_iff.mpr huq
          omega
        · rw [if_neg huq]
          exact List.count_eq_zero.mpr huq
      constructor
      · intro hpem
        by_cases hqe : q.1 = em
        · simp [hqe, List.count_append, hcnt0]
        · exfalso
          simp [hqe] at hpem
      · intro hpne
        by_cases hqe : q.1 = em
        · exfalso
          simp [hqe] at hpne
        · simp [hqe, hcnt0]
    refine ⟨_, ?_, hkeys, hchar, ?_⟩
    · unfold reactionTap
      rw [hb]
      simp [hu]
    · apply userOcc_le_one_of_buckets em u _ (by rw [hkeys]; exact hnodup)
      intro p hp
      exact ⟨fun h => le_of_eq ((hchar p hp).1 h), (hchar p hp).2⟩

/-- Claim C5: on a message whose reaction ledger holds each voter at most
once in total, tapping emoji A and then emoji B (both buckets of the
message) leaves the voter recorded in exactly the B bucket and in no
other, and the at most one active reaction invariant is preserved by the
taps. -/
theorem reaction_tap_exclusivity
    (reactions : List (String × List Nat)) (A B : String) (u : Nat)
    (hnodup : (reactions.map Prod.fst).Nodup)
    (hA : A ∈ reactions.map Prod.fst) (hB : B ∈ reactions.map Prod.fst)
    (hocc : userOcc reactions u ≤ 1) :
    ∃ r1 r2, reactionTap reactions A u = some r1 ∧
      reactionTap r1 B u = some r2 ∧
      (∀ p ∈ r2, (u ∈ p.2 ↔ p.1 = B)) ∧
      userOcc r2 u ≤ 1 := by
  obtain ⟨r1, htap1, hkeys1, _, hocc1⟩ :=
    reactionTap_buckets reactions A u hnodup hA hocc
  have hnd1 : (r1.map Prod.fst).Nodup := by
    rw [hkeys1]
    exact hnodup
  have hB1 : B ∈ r1.map Prod.fst := by
    rw [hkeys1]
    exact hB
  obtain ⟨r2, htap2, _, hchar2, hocc2⟩ :=
    reactionTap_buckets r1 B u hnd1 hB1 hocc1
  refine ⟨r1, r2, htap1, htap2, ?_, hocc2⟩
  intro p hp
  have h := hchar2 p hp
  constructor
  · intro hu
    by_contra hne
    have h0 := h.2 hne
    rw [List.count_eq_zero] at h0
    exact h0 hu
  · intro hpB
    have h1 := h.1 hpB
    have hpos : 0 < p.2.count u := by omega
    exact List.count_pos_iff.mp hpos

/-- Witness for C5 on a concrete two bucket ledger with a fresh voter. -/
theorem reaction_tap_exclusivity_witness :
    ∃ r1 r2, reactionTap [("like", []), ("dislike", [])] "like" 5 = some r1 ∧
      reactionTap r1 "dislike" 5 = some r2 ∧
      (∀ p ∈ r2, (5 ∈ p.2 ↔ p.1 = "dislike")) ∧
      userOcc r2 5 ≤ 1 :=
  reaction_tap_exclusivity [("like", []), ("dislike", [])] "like" "dislike" 5
    (by decide) (by decide) (by decide) (by decide)

end XCBot
